import Mathlib

/-!
Shallow embedding of the coin-accrual, site-classification, heartbeat
buffering and synchronization logic of `src/background.js`
(class `FocusCoinEngine`), together with theorems settling the claims
about that logic.
-/

namespace FocusCoin

/-- Site classification, the result of `getSiteType`. -/
inductive SiteType where
  | productive
  | distracting
  | neutral
deriving DecidableEq, Repr

/-- The `action` field of a heartbeat record:
`siteType === 'productive' ? 'focus' : 'distract'`. -/
inductive HbAction where
  | focus
  | distract
deriving DecidableEq, Repr

/-- One heartbeat record, as built in `updateCoins` and completed with the
`sessionId` field in `addHeartbeat`. -/
structure Heartbeat where
  timestamp : Int
  site : String
  siteType : SiteType
  action : HbAction
  coinsChange : Int
  tabId : Nat
  url : String
  sessionId : Option String
deriving DecidableEq, Repr

/-- The active browser tab as read by `updateCoins`: `hostname` is
`new URL(tab.url).hostname`, `url` is `tab.url`, `id` is `tab.id`. -/
structure Tab where
  hostname : String
  url : String
  id : Nat
deriving DecidableEq, Repr

/-- The engine state touched by the embedded operations: the local-storage
keys `focusCoins` and `todayCoins`, and the in-memory fields
`isSessionActive`, `lastUpdateTime`, `heartbeatBuffer` and `sessionId`. -/
structure EngineState where
  isSessionActive : Bool
  focusCoins : Int
  todayCoins : Int
  lastUpdateTime : Int
  heartbeatBuffer : List Heartbeat
  sessionId : Option String
deriving DecidableEq, Repr

/-- `this.coinUpdateInterval` (milliseconds): one tick. -/
def coinUpdateInterval : Int := 5000

/-- `this.maxBufferSize`. -/
def maxBufferSize : Nat := 10

/-- `this.productiveSites`. -/
def productiveSites : List String :=
  ["github.com", "stackoverflow.com", "wikipedia.org", "leetcode.com",
   "coursera.org", "udemy.com", "edx.org", "khanacademy.org",
   "developer.mozilla.org", "w3schools.com", "freecodecamp.org"]

/-- `this.distractingSites`. -/
def distractingSites : List String :=
  ["youtube.com", "instagram.com", "twitter.com", "facebook.com",
   "reddit.com", "tiktok.com", "netflix.com", "twitch.tv",
   "discord.com", "whatsapp.com"]

/-- JavaScript `s.includes(pat)` on the underlying character lists: `pat`
occurs as a contiguous substring of `s` (an empty pattern always occurs). -/
def hasSub (pat : List Char) : List Char → Bool
  | [] => pat.isEmpty
  | c :: rest => pat.isPrefixOf (c :: rest) || hasSub pat rest

/-- `domain.includes(site)` as used by `getSiteType`. -/
def includes (domain site : String) : Bool :=
  hasSub site.data domain.data

/-- `getSiteType`, generalized over the two site lists the method reads from
`this`: first match in the productive list wins, then the distracting list,
otherwise neutral. -/
def getSiteTypeWith (prod dist : List String) (domain : String) : SiteType :=
  if prod.any (fun site => includes domain site) then SiteType.productive
  else if dist.any (fun site => includes domain site) then SiteType.distracting
  else SiteType.neutral

/-- `getSiteType(domain)` with the engine's fixed site lists. -/
def getSiteType (domain : String) : SiteType :=
  getSiteTypeWith productiveSites distractingSites domain

/-- JavaScript `String.prototype.replace` with a string pattern and empty
replacement string: removes the first occurrence of `pat` anywhere in the
string, and leaves the string unchanged when `pat` does not occur. -/
def removeFirst (pat : List Char) : List Char → List Char
  | [] => []
  | c :: rest =>
    if pat.isPrefixOf (c :: rest) then (c :: rest).drop pat.length
    else c :: removeFirst pat rest

/-- `url.hostname.replace('www.', '')` from `updateCoins`. -/
def normalizeHostname (h : String) : String :=
  ⟨removeFirst "www.".data h.data⟩

/-- Modelled from the spec for comparison with `normalizeHostname`: "the
hostname with its leading `www.` removed and the rest of the hostname
intact". -/
def stripLeadingWww (h : String) : String :=
  if ("www.".data).isPrefixOf h.data then ⟨h.data.drop 4⟩ else h

/-- Outcome of the `apiCall('/sessions/heartbeats', …)` round trip as
observed by `syncHeartbeats`: a parsed response whose `success` field is the
given boolean, or a thrown network error. -/
inductive SyncOutcome where
  | response (success : Bool)
  | netError
deriving DecidableEq, Repr

/-- `syncHeartbeats`. Returns the buffer afterwards and the batch handed to
`apiCall` (`none` when no request was attempted). The buffer is reset only
when the response reports success; a falsy `success` field or a thrown
network error keeps the records for retry. -/
def syncHeartbeats (buf : List Heartbeat) (o : SyncOutcome) :
    List Heartbeat × Option (List Heartbeat) :=
  if buf.isEmpty then (buf, none)
  else
    match o with
    | SyncOutcome.response true => ([], some buf)
    | SyncOutcome.response false => (buf, some buf)
    | SyncOutcome.netError => (buf, some buf)

/-- `addHeartbeat`: push the (already `sessionId`-completed) record, then
auto-sync once when the buffer has reached `maxBufferSize`. Returns the
buffer afterwards and the batch sent by the triggered sync, if any. -/
def addHeartbeat (buf : List Heartbeat) (hb : Heartbeat) (o : SyncOutcome) :
    List Heartbeat × Option (List Heartbeat) :=
  let pushed := buf ++ [hb]
  if maxBufferSize ≤ pushed.length then syncHeartbeats pushed o
  else (pushed, none)

/-- Observable outcome of one `updateCoins` run: the engine state afterwards,
the record handed to `addHeartbeat` (if any), the domain handed to
`blockSite` (if that side effect was invoked), and the batch sent by an
auto-sync that `addHeartbeat` triggered (if any). -/
structure EvalResult where
  state : EngineState
  emitted : Option Heartbeat
  blocked : Option String
  sent : Option (List Heartbeat)
deriving DecidableEq, Repr

/-- `updateCoins`, for an evaluation that observes active tab `tab` at clock
reading `now`; `o` resolves the network call of an auto-sync that
`addHeartbeat` may trigger. -/
def updateCoins (st : EngineState) (tab : Tab) (now : Int) (o : SyncOutcome) :
    EvalResult :=
  if st.isSessionActive = false then ⟨st, none, none, none⟩
  else
    let domain := normalizeHostname tab.hostname
    let siteType := getSiteType domain
    if siteType = SiteType.neutral then ⟨st, none, none, none⟩
    else
      let currentCoins := st.focusCoins
      let todayCoins := st.todayCoins
      let timeDiff := now - st.lastUpdateTime
      let intervalsElapsed := Int.fdiv timeDiff coinUpdateInterval
      if 0 < intervalsElapsed then
        if siteType = SiteType.productive then
          let coinChange := intervalsElapsed * 3
          let hb : Heartbeat :=
            ⟨now, domain, siteType, HbAction.focus, coinChange,
             tab.id, tab.url, st.sessionId⟩
          let synced := addHeartbeat st.heartbeatBuffer hb o
          ⟨{ st with
              focusCoins := currentCoins + coinChange,
              todayCoins := todayCoins + coinChange,
              heartbeatBuffer := synced.1,
              lastUpdateTime := now },
           some hb, none, synced.2⟩
        else
          let coinChange := intervalsElapsed * (-4)
          if 0 < currentCoins then
            let hb : Heartbeat :=
              ⟨now, domain, siteType, HbAction.distract, coinChange,
               tab.id, tab.url, st.sessionId⟩
            let synced := addHeartbeat st.heartbeatBuffer hb o
            ⟨{ st with
                focusCoins := max 0 (currentCoins + coinChange),
                heartbeatBuffer := synced.1,
                lastUpdateTime := now },
             some hb, none, synced.2⟩
          else
            ⟨st, none, some domain, none⟩
      else ⟨st, none, none, none⟩

/-- One evaluation input: the active tab, the clock reading, and the network
outcome for the sync the evaluation might trigger. -/
structure EvalInput where
  tab : Tab
  now : Int
  outcome : SyncOutcome
deriving Repr

/-- Run a sequence of `updateCoins` evaluations, threading the engine state. -/
def runEvals (st : EngineState) (evs : List EvalInput) : EngineState :=
  evs.foldl (fun s e => (updateCoins s e.tab e.now e.outcome).state) st

/-- Run a sequence of `addHeartbeat` operations, threading the buffer. -/
def runAdds (buf : List Heartbeat) (ops : List (Heartbeat × SyncOutcome)) :
    List Heartbeat :=
  ops.foldl (fun b p => (addHeartbeat b p.1 p.2).1) buf

/-! Helper lemmas. -/

theorem isPrefixOf_iff_ex (p s : List Char) :
    p.isPrefixOf s = true ↔ ∃ t, p ++ t = s := by
  induction p generalizing s with
  | nil => simp [List.isPrefixOf]
  | cons a as ih =>
    cases s with
    | nil => simp [List.isPrefixOf]
    | cons b bs =>
      simp only [List.isPrefixOf, Bool.and_eq_true, beq_iff_eq, ih,
        List.cons_append, List.cons.injEq]
      constructor
      · rintro ⟨hab, t, ht⟩
        exact ⟨t, hab, ht⟩
      · rintro ⟨t, hab, ht⟩
        exact ⟨hab, t, ht⟩

theorem hasSub_iff (p s : List Char) : hasSub p s = true ↔ p <:+: s := by
  induction s with
  | nil =>
    simp only [hasSub, List.isEmpty_iff]
    constructor
    · rintro rfl
      exact ⟨[], [], rfl⟩
    · rintro ⟨l, r, h⟩
      simp [List.append_eq_nil] at h
      exact h.2.1
  | cons c rest ih =>
    simp only [hasSub, Bool.or_eq_true, isPrefixOf_iff_ex, ih]
    constructor
    · rintro (⟨t, ht⟩ | ⟨l, r, hlr⟩)
      · exact ⟨[], t, by simpa using ht⟩
      · exact ⟨c :: l, r, by simp [hlr]⟩
    · rintro ⟨l, r, hlr⟩
      cases l with
      | nil => exact Or.inl ⟨r, by simpa using hlr⟩
      | cons x xs =>
        simp only [List.cons_append, List.cons.injEq] at hlr
        exact Or.inr ⟨xs, r, hlr.2⟩

theorem any_includes_iff (L : List String) (H : String) :
    (L.any fun site => includes H site) = true ↔
      ∃ s ∈ L, s.data <:+: H.data := by
  simp only [List.any_eq_true, includes, hasSub_iff]

/-! Claim theorems. -/

/-- C6: for every hostname `H` and lists `P`, `D`, `classify(H,P,D)` returns
productive exactly when some entry of `P` is an (unanchored) substring of
`H`; otherwise distracting exactly when some entry of `D` is a substring of
`H`; otherwise neutral. Productive is checked first, so a hostname matching
entries of both lists classifies as productive. -/
theorem getSiteTypeWith_spec (H : String) (P D : List String) :
    (getSiteTypeWith P D H = SiteType.productive ↔
      ∃ p ∈ P, p.data <:+: H.data) ∧
    (getSiteTypeWith P D H = SiteType.distracting ↔
      (¬ ∃ p ∈ P, p.data <:+: H.data) ∧ ∃ d ∈ D, d.data <:+: H.data) ∧
    (getSiteTypeWith P D H = SiteType.neutral ↔
      (¬ ∃ p ∈ P, p.data <:+: H.data) ∧ ¬ ∃ d ∈ D, d.data <:+: H.data) := by
  unfold getSiteTypeWith
  rcases hP : (P.any fun site => includes H site) with _ | _ <;>
    rcases hD : (D.any fun site => includes H site) with _ | _ <;>
      rw [← any_includes_iff P H, ← any_includes_iff D H, hP, hD] <;>
        simp

/-- C7 (counterexample): the claim says the classified domain is the hostname
with its leading `www.` removed and the rest intact; on hostname
`app.www.example.com` the code removes the non-leading first occurrence of
`www.` instead, yielding `app.example.com`. -/
theorem normalizeHostname_counterexample :
    normalizeHostname "app.www.example.com" = "app.example.com" ∧
    stripLeadingWww "app.www.example.com" = "app.www.example.com" ∧
    normalizeHostname "app.www.example.com" ≠
      stripLeadingWww "app.www.example.com" := by decide

/-- C7 (amended): normalization removes the first occurrence of the substring
`www.` anywhere in the hostname; in particular, for every hostname that does
begin with `www.`, that leading prefix is removed and the rest of the
hostname is kept intact. -/
theorem normalizeHostname_strips_leading_www (h : String) (rest : List Char)
    (hw : h.data = 'w' :: 'w' :: 'w' :: '.' :: rest) :
    normalizeHostname h = ⟨rest⟩ := by
  unfold normalizeHostname
  rw [hw]
  simp [removeFirst, List.isPrefixOf]

/-- C7 (witness): the amended claim at the hostname `www.github.com`. -/
theorem normalizeHostname_strips_leading_www_witness :
    normalizeHostname "www.github.com" = "github.com" :=
  normalizeHostname_strips_leading_www "www.github.com" "github.com".data rfl

/-- C4: `flush()` on an empty buffer is a no-op; otherwise it sends the
entire buffer contents as one batch, and afterwards the buffer is empty
exactly when the remote confirmed success, while on any failure (network
error or non-success response) the buffer contents are left unchanged for a
later retry. -/
theorem syncHeartbeats_spec (o : SyncOutcome) :
    syncHeartbeats [] o = ([], none) ∧
    ∀ buf : List Heartbeat, buf ≠ [] →
      (syncHeartbeats buf o).2 = some buf ∧
      ((syncHeartbeats buf o).1 = [] ↔ o = SyncOutcome.response true) ∧
      (o ≠ SyncOutcome.response true → (syncHeartbeats buf o).1 = buf) := by
  constructor
  · rfl
  · intro buf hne
    have hE : buf.isEmpty = false := by
      cases buf with
      | nil => exact absurd rfl hne
      | cons a l => rfl
    rcases o with b | _
    · cases b <;> simp [syncHeartbeats, hE, hne]
    · simp [syncHeartbeats, hE, hne]

/-- C4 (witness): the flush contract at an empty buffer and at a concrete
one-record buffer with a network failure. -/
theorem syncHeartbeats_spec_witness :
    syncHeartbeats [] SyncOutcome.netError = ([], none) ∧
    (syncHeartbeats
      [⟨0, "youtube.com", SiteType.distracting, HbAction.distract, -4, 0,
        "https://youtube.com/", none⟩] SyncOutcome.netError).1 =
      [⟨0, "youtube.com", SiteType.distracting, HbAction.distract, -4, 0,
        "https://youtube.com/", none⟩] := by
  have h := syncHeartbeats_spec SyncOutcome.netError
  exact ⟨h.1,
    (h.2 [⟨0, "youtube.com", SiteType.distracting, HbAction.distract, -4, 0,
      "https://youtube.com/", none⟩] (by simp)).2.2 (by simp)⟩

/-- C5 (counterexample): starting from an empty buffer, eleven appends whose
triggered flushes all fail by network error leave the buffer at length 11,
strictly above `maxBufferSize = 10` — the claimed bound does not hold for
every sequence of operations. -/
theorem buffer_bound_counterexample :
    maxBufferSize <
      (runAdds []
        (List.replicate 11
          (⟨0, "youtube.com", SiteType.distracting, HbAction.distract, -4, 0,
            "https://youtube.com/", none⟩, SyncOutcome.netError))).length := by
  decide

/-- C5 (amended): an append triggers exactly one flush attempt precisely when
it brings the buffer length to `maxBufferSize` or beyond; and as long as
every triggered flush succeeds, the buffer length stays below
`maxBufferSize`. A failed flush retains the records, so the length can
exceed `maxBufferSize`. -/
theorem buffer_bound_amended :
    (∀ (buf : List Heartbeat) (hb : Heartbeat) (o : SyncOutcome),
      (addHeartbeat buf hb o).2.isSome = true ↔
        maxBufferSize ≤ buf.length + 1) ∧
    (∀ (buf : List Heartbeat) (ops : List (Heartbeat × SyncOutcome)),
      buf.length < maxBufferSize →
      (∀ p ∈ ops, p.2 = SyncOutcome.response true) →
      (runAdds buf ops).length < maxBufferSize) := by
  constructor
  · intro buf hb o
    have hlen : (buf ++ [hb]).length = buf.length + 1 := by simp
    have hE : (buf ++ [hb]).isEmpty = false := by
      cases buf <;> rfl
    simp only [addHeartbeat, hlen]
    by_cases hL : maxBufferSize ≤ buf.length + 1
    · rcases o with b | _
      · cases b <;> simp [hL, syncHeartbeats, hE]
      · simp [hL, syncHeartbeats, hE]
    · simp [hL]
  · intro buf ops
    induction ops generalizing buf with
    | nil => intro h _; simpa [runAdds] using h
    | cons p ops ih =>
      intro hlen hok
      have hp : p.2 = SyncOutcome.response true := hok p (by simp)
      have hstep : ((addHeartbeat buf p.1 p.2).1).length < maxBufferSize := by
        have hlen1 : (buf ++ [p.1]).length = buf.length + 1 := by simp
        have hE : (buf ++ [p.1]).isEmpty = false := by
          cases buf <;> rfl
        simp only [addHeartbeat, hlen1]
        by_cases hL : maxBufferSize ≤ buf.length + 1
        · rw [if_pos hL, hp]
          simp [syncHeartbeats, hE, maxBufferSize]
        · rw [if_neg hL]
          simp only [hlen1]
          omega
      have hfold : runAdds buf (p :: ops) =
          runAdds (addHeartbeat buf p.1 p.2).1 ops := by
        simp [runAdds]
      rw [hfold]
      exact ih _ hstep (fun q hq => hok q (by simp [hq]))

/-- C5 (witness): the amended claim at an empty buffer, for a single append
and for a one-element all-success operation sequence. -/
theorem buffer_bound_amended_witness :
    ((addHeartbeat []
        ⟨0, "github.com", SiteType.productive, HbAction.focus, 3, 0,
          "https://github.com/", none⟩ SyncOutcome.netError).2.isSome = true ↔
      maxBufferSize ≤ ([] : List Heartbeat).length + 1) ∧
    (runAdds []
        [(⟨0, "github.com", SiteType.productive, HbAction.focus, 3, 0,
            "https://github.com/", none⟩, SyncOutcome.response true)]).length <
      maxBufferSize := by
  refine ⟨buffer_bound_amended.1 [] _ SyncOutcome.netError,
    buffer_bound_amended.2 [] _ (by decide) ?_⟩
  intro q hq
  simp at hq
  subst hq
  rfl

/-- C8: a second `evaluate()` less than one tick interval after an evaluation
that advanced `lastEvaluationTime` is a no-op: zero coin change, earnedToday
unchanged, no heartbeat appended, and no side effect. -/
theorem updateCoins_subtick_noop (st : EngineState) (tab : Tab) (now : Int)
    (o : SyncOutcome) (h1 : st.lastUpdateTime ≤ now)
    (h2 : now < st.lastUpdateTime + coinUpdateInterval) :
    updateCoins st tab now o = ⟨st, none, none, none⟩ := by
  have hz : Int.fdiv (now - st.lastUpdateTime) coinUpdateInterval = 0 := by
    rw [Int.fdiv_eq_ediv _ (by norm_num [coinUpdateInterval])]
    exact Int.ediv_eq_zero_of_lt (by omega) (by omega)
  simp [updateCoins, hz]

/-- C8 (witness): the sub-tick no-op at a concrete state, 2 seconds after the
last evaluation. -/
theorem updateCoins_subtick_noop_witness :
    updateCoins ⟨true, 5, 0, 1000, [], none⟩
      ⟨"github.com", "https://github.com/", 1⟩ 3000 SyncOutcome.netError =
    ⟨⟨true, 5, 0, 1000, [], none⟩, none, none, none⟩ :=
  updateCoins_subtick_noop ⟨true, 5, 0, 1000, [], none⟩
    ⟨"github.com", "https://github.com/", 1⟩ 3000 SyncOutcome.netError
    (by decide) (by decide)

theorem step_focusCoins_nonneg (st : EngineState) (tab : Tab) (now : Int)
    (o : SyncOutcome) (h : 0 ≤ st.focusCoins) :
    0 ≤ (updateCoins st tab now o).state.focusCoins := by
  simp only [updateCoins]
  split_ifs with h1 h2 h3 h4 h5 <;> simp <;> omega

theorem runEvals_nonneg (evs : List EvalInput) :
    ∀ st : EngineState, 0 ≤ st.focusCoins → 0 ≤ (runEvals st evs).focusCoins := by
  induction evs with
  | nil => intro st h; simpa [runEvals] using h
  | cons e evs ih =>
    intro st h
    have hfold : runEvals st (e :: evs) =
        runEvals (updateCoins st e.tab e.now e.outcome).state evs := by
      simp [runEvals]
    rw [hfold]
    exact ih _ (step_focusCoins_nonneg st e.tab e.now e.outcome h)

/-- C2: starting from a non-negative balance, no sequence of evaluations ever
drives the coin balance negative; and a distracting delta that would drive
the balance below zero leaves it at exactly zero. -/
theorem balance_never_negative :
    (∀ (st : EngineState) (evs : List EvalInput),
      0 ≤ st.focusCoins → 0 ≤ (runEvals st evs).focusCoins) ∧
    (∀ (st : EngineState) (tab : Tab) (now : Int) (o : SyncOutcome),
      st.isSessionActive = true →
      getSiteType (normalizeHostname tab.hostname) = SiteType.distracting →
      0 < Int.fdiv (now - st.lastUpdateTime) coinUpdateInterval →
      0 ≤ st.focusCoins →
      st.focusCoins +
          Int.fdiv (now - st.lastUpdateTime) coinUpdateInterval * (-4) < 0 →
      (updateCoins st tab now o).state.focusCoins = 0) := by
  refine ⟨fun st evs h => runEvals_nonneg evs st h, ?_⟩
  intro st tab now o hA hS hT h0 hneg
  by_cases hpos : 0 < st.focusCoins
  · simp [updateCoins, hA, hS, hT, hpos]
    omega
  · have hz : st.focusCoins = 0 := le_antisymm (by omega) h0
    simp [updateCoins, hA, hS, hT, hpos, hz]

/-- C2 (witness): the non-negativity invariant after one distracting
evaluation from balance 10, and the exact-zero clamp from balance 2. -/
theorem balance_never_negative_witness :
    0 ≤ (runEvals ⟨true, 10, 0, 0, [], none⟩
      [⟨⟨"youtube.com", "https://youtube.com/", 1⟩, 5000,
        SyncOutcome.netError⟩]).focusCoins ∧
    (updateCoins ⟨true, 2, 0, 0, [], none⟩
      ⟨"youtube.com", "https://youtube.com/", 1⟩ 5000
      SyncOutcome.netError).state.focusCoins = 0 :=
  ⟨balance_never_negative.1 _ _ (by decide),
   balance_never_negative.2 _ _ _ _ rfl (by decide) (by decide) (by decide)
     (by decide)⟩

/-- C3: a distracting evaluation with at least one elapsed tick and a
pre-delta balance of exactly 0 invokes BlockAction with the classified
domain and returns early: balance, earnedToday and the heartbeat buffer are
unchanged and no heartbeat is emitted. -/
theorem blocking_path_frame (st : EngineState) (tab : Tab) (now : Int)
    (o : SyncOutcome) (hA : st.isSessionActive = true)
    (hS : getSiteType (normalizeHostname tab.hostname) = SiteType.distracting)
    (hT : 0 < Int.fdiv (now - st.lastUpdateTime) coinUpdateInterval)
    (hB : st.focusCoins = 0) :
    updateCoins st tab now o =
      ⟨st, none, some (normalizeHostname tab.hostname), none⟩ := by
  simp [updateCoins, hA, hS, hT, hB]

/-- C3 (witness): the blocking early return at balance 0 on
`www.youtube.com` with one elapsed tick. -/
theorem blocking_path_frame_witness :
    updateCoins ⟨true, 0, 5, 0, [], some "sid"⟩
      ⟨"www.youtube.com", "https://www.youtube.com/", 2⟩ 5000
      SyncOutcome.netError =
    ⟨⟨true, 0, 5, 0, [], some "sid"⟩, none, some "youtube.com", none⟩ := by
  have h := blocking_path_frame ⟨true, 0, 5, 0, [], some "sid"⟩
    ⟨"www.youtube.com", "https://www.youtube.com/", 2⟩ 5000
    SyncOutcome.netError rfl (by decide) (by decide) rfl
  rw [h]
  decide

/-- C1 (counterexample): with balance 2, a distracting site and one elapsed
tick, the code does NOT invoke BlockAction and DOES emit a heartbeat
(carrying the unclamped `coinsChange = -4`), contradicting the claim that no
heartbeat is emitted and that BlockAction is invoked. -/
theorem clamp_tick_counterexample :
    (updateCoins ⟨true, 2, 0, 0, [], some "s"⟩
      ⟨"www.youtube.com", "https://www.youtube.com/watch", 7⟩ 5000
      SyncOutcome.netError).blocked = none ∧
    (updateCoins ⟨true, 2, 0, 0, [], some "s"⟩
      ⟨"www.youtube.com", "https://www.youtube.com/watch", 7⟩ 5000
      SyncOutcome.netError).emitted =
      some ⟨5000, "youtube.com", SiteType.distracting, HbAction.distract, -4,
        7, "https://www.youtube.com/watch", some "s"⟩ := by decide

/-- C1 (amended): for an evaluation with balance 2, a distracting site and
exactly one elapsed tick, the -4 delta would drive the balance below zero,
so the stored balance clamps to 0; one heartbeat IS emitted for this tick
with the full `coinsChange = -4`; and BlockAction is NOT invoked (blocking
occurs only when the pre-delta balance is already 0). -/
theorem clamp_tick_emits_and_does_not_block (st : EngineState) (tab : Tab)
    (now : Int) (o : SyncOutcome) (hA : st.isSessionActive = true)
    (hS : getSiteType (normalizeHostname tab.hostname) = SiteType.distracting)
    (hB : st.focusCoins = 2)
    (hT : Int.fdiv (now - st.lastUpdateTime) coinUpdateInterval = 1) :
    (updateCoins st tab now o).state.focusCoins = 0 ∧
    st.focusCoins + (-4) < 0 ∧
    (updateCoins st tab now o).emitted =
      some ⟨now, normalizeHostname tab.hostname, SiteType.distracting,
        HbAction.distract, -4, tab.id, tab.url, st.sessionId⟩ ∧
    (updateCoins st tab now o).blocked = none := by
  refine ⟨?_, ?_, ?_, ?_⟩
  · simp [updateCoins, hA, hS, hB, hT]
  · rw [hB]; decide
  · simp [updateCoins, hA, hS, hB, hT]
  · simp [updateCoins, hA, hS, hB, hT]

/-- C1 (witness): the amended claim at balance 2 on `www.youtube.com` with
one elapsed tick. -/
theorem clamp_tick_emits_and_does_not_block_witness :
    (updateCoins ⟨true, 2, 0, 0, [], some "s"⟩
      ⟨"www.youtube.com", "https://www.youtube.com/watch", 7⟩ 5000
      SyncOutcome.netError).state.focusCoins = 0 ∧
    (2 : Int) + (-4) < 0 ∧
    (updateCoins ⟨true, 2, 0, 0, [], some "s"⟩
      ⟨"www.youtube.com", "https://www.youtube.com/watch", 7⟩ 5000
      SyncOutcome.netError).emitted =
      some ⟨5000, "youtube.com", SiteType.distracting, HbAction.distract, -4,
        7, "https://www.youtube.com/watch", some "s"⟩ ∧
    (updateCoins ⟨true, 2, 0, 0, [], some "s"⟩
      ⟨"www.youtube.com", "https://www.youtube.com/watch", 7⟩ 5000
      SyncOutcome.netError).blocked = none := by
  have h := clamp_tick_emits_and_does_not_block ⟨true, 2, 0, 0, [], some "s"⟩
    ⟨"www.youtube.com", "https://www.youtube.com/watch", 7⟩ 5000
    SyncOutcome.netError rfl (by decide) rfl (by decide)
  refine ⟨h.1, h.2.1, ?_, h.2.2.2⟩
  rw [h.2.2.1]
  decide

/-- C9: for an evaluation with balance 10, a productive site and 3 elapsed
ticks, the balance becomes 19, earnedToday increases by 9, exactly one
heartbeat is emitted with `coinsChange = 9` and action `focus`, and no
blocking occurs. -/
theorem productive_three_ticks (st : EngineState) (tab : Tab) (now : Int)
    (o : SyncOutcome) (hA : st.isSessionActive = true)
    (hS : getSiteType (normalizeHostname tab.hostname) = SiteType.productive)
    (hB : st.focusCoins = 10)
    (hT : Int.fdiv (now - st.lastUpdateTime) coinUpdateInterval = 3) :
    (updateCoins st tab now o).state.focusCoins = 19 ∧
    (updateCoins st tab now o).state.todayCoins = st.todayCoins + 9 ∧
    (updateCoins st tab now o).emitted =
      some ⟨now, normalizeHostname tab.hostname, SiteType.productive,
        HbAction.focus, 9, tab.id, tab.url, st.sessionId⟩ ∧
    (updateCoins st tab now o).blocked = none := by
  refine ⟨?_, ?_, ?_, ?_⟩ <;> simp [updateCoins, hA, hS, hB, hT]

/-- C9 (witness): the productive scenario at balance 10 on `github.com` with
3 elapsed ticks. -/
theorem productive_three_ticks_witness :
    (updateCoins ⟨true, 10, 0, 0, [], none⟩
      ⟨"github.com", "https://github.com/", 1⟩ 15000
      (SyncOutcome.response true)).state.focusCoins = 19 ∧
    (updateCoins ⟨true, 10, 0, 0, [], none⟩
      ⟨"github.com", "https://github.com/", 1⟩ 15000
      (SyncOutcome.response true)).state.todayCoins = 9 ∧
    (updateCoins ⟨true, 10, 0, 0, [], none⟩
      ⟨"github.com", "https://github.com/", 1⟩ 15000
      (SyncOutcome.response true)).emitted =
      some ⟨15000, "github.com", SiteType.productive, HbAction.focus, 9, 1,
        "https://github.com/", none⟩ ∧
    (updateCoins ⟨true, 10, 0, 0, [], none⟩
      ⟨"github.com", "https://github.com/", 1⟩ 15000
      (SyncOutcome.response true)).blocked = none := by
  have h := productive_three_ticks ⟨true, 10, 0, 0, [], none⟩
    ⟨"github.com", "https://github.com/", 1⟩ 15000 (SyncOutcome.response true)
    rfl (by decide) rfl (by decide)
  refine ⟨h.1, h.2.1, ?_, h.2.2.2⟩
  rw [h.2.2.1]
  decide

/-- C10: on a distracting evaluation with `0 < balance < 4 * elapsedTicks`,
the emitted record's `coinsChange` is the full unclamped
`elapsedTicks * (-4)`, the balance clamps to 0, and the recorded
`coinsChange` is strictly less than the actual change of the local
balance. -/
theorem unclamped_delta_recorded (st : EngineState) (tab : Tab) (now : Int)
    (o : SyncOutcome) (k : Int) (hA : st.isSessionActive = true)
    (hS : getSiteType (normalizeHostname tab.hostname) = SiteType.distracting)
    (hk : Int.fdiv (now - st.lastUpdateTime) coinUpdateInterval = k)
    (hk1 : 0 < k) (hpos : 0 < st.focusCoins) (hlt : st.focusCoins < 4 * k) :
    (updateCoins st tab now o).emitted =
      some ⟨now, normalizeHostname tab.hostname, SiteType.distracting,
        HbAction.distract, k * (-4), tab.id, tab.url, st.sessionId⟩ ∧
    (updateCoins st tab now o).state.focusCoins = 0 ∧
    k * (-4) <
      (updateCoins st tab now o).state.focusCoins - st.focusCoins := by
  refine ⟨?_, ?_, ?_⟩ <;> simp [updateCoins, hA, hS, hk, hk1, hpos] <;> omega

/-- C10 (witness): the unclamped recording at balance 2 with one distracting
elapsed tick: the record carries -4 while the balance only drops by 2. -/
theorem unclamped_delta_recorded_witness :
    (updateCoins ⟨true, 2, 0, 0, [], none⟩
      ⟨"youtube.com", "https://youtube.com/", 3⟩ 5000
      SyncOutcome.netError).emitted =
      some ⟨5000, "youtube.com", SiteType.distracting, HbAction.distract, -4,
        3, "https://youtube.com/", none⟩ ∧
    (updateCoins ⟨true, 2, 0, 0, [], none⟩
      ⟨"youtube.com", "https://youtube.com/", 3⟩ 5000
      SyncOutcome.netError).state.focusCoins = 0 ∧
    (-4 : Int) <
      (updateCoins ⟨true, 2, 0, 0, [], none⟩
        ⟨"youtube.com", "https://youtube.com/", 3⟩ 5000
        SyncOutcome.netError).state.focusCoins - 2 := by
  have h := unclamped_delta_recorded ⟨true, 2, 0, 0, [], none⟩
    ⟨"youtube.com", "https://youtube.com/", 3⟩ 5000 SyncOutcome.netError 1
    rfl (by decide) (by decide) (by decide) (by decide) (by decide)
  refine ⟨?_, h.2.1, h.2.2⟩
  rw [h.1]
  decide

end FocusCoin
